import Mathlib

/-!
# Verification of the ARGOS calibration-pipeline text parser

Shallow embedding of `src/utils/dataset_utils.py`: the CASA bandpass
report parser (section extraction, header deduplication, section
splitting and joining, record parsing) and the HDF5 persistence layer.

Conventions of the embedding:
* A report is a `List String` of lines (the Python code reads the file
  into `lines`; file access itself is out of scope).
* Python exceptions are modelled with `Except PyErr`; the constructors
  of `PyErr` are exactly the built-in exceptions the code can raise
  (there are no user-defined exception classes anywhere in the repo).
* `caltable_to_dict` returns `Except PyErr (Option CalDict)`:
  `.ok none` models Python's `return None` (the warning-and-abort path),
  `.ok (some d)` a successful parse, `.error e` an uncaught exception.
* Numeric tokens are parsed exactly into `ℚ` (Python parses them into
  IEEE doubles; the rounding of binary floating point is not modelled —
  the decimal value of each token is kept exactly).
* A complex gain `amp * exp(1j * deg2rad(phase))` is represented by its
  polar data, the pair `(amp, phase°) : ℚ × ℚ`; the pointwise
  interpretation into `ℂ` is `gainValue`.  numpy's elementwise
  `amp * np.exp(1j*np.deg2rad(phs))` commutes with `reshape`/`swapaxes`,
  so carrying the polar pair through the axis bookkeeping loses nothing.
* Bounded Python loops (`for i, L in enumerate(...)`, the re-scanning
  recursion of `remove_duplicate_heders`, the recursion of
  `join_sections`) are modelled with explicit fuel bounded by the input
  size; sufficiency of the fuel is proved where a theorem needs it.
-/

/-- The Python built-in exceptions the embedded code can raise. The repo
defines no exception classes of its own. -/
inductive PyErr where
  | indexError
  | unboundLocalError
  | valueError
deriving DecidableEq, Repr

deriving instance DecidableEq for Except

/-! ## String primitives (Python `in`, slicing, `split`, `rstrip`) -/

/-- `hay` starts with `needle` (on character lists). -/
def strStartsWith : List Char → List Char → Bool
  | _, [] => true
  | [], _ :: _ => false
  | h :: t, n :: ns => h == n && strStartsWith t ns

/-- Contiguous-substring test on character lists. -/
def listContainsSub : List Char → List Char → Bool
  | [], needle => needle.isEmpty
  | h :: t, needle => strStartsWith (h :: t) needle || listContainsSub t needle

/-- Python's `needle in hay` substring test. -/
def containsStr (hay needle : String) : Bool :=
  listContainsSub hay.data needle.data

/-- Normalize one Python index for a slice over a list of length `n`:
negative indices count from the end, and the result is clamped to
`[0, n]`. -/
def pyIdx (n : Nat) (i : Int) : Nat :=
  if i < 0 then n - (-i).toNat else min i.toNat n

/-- Python `l[a:b]`. -/
def pySlice (l : List α) (a b : Int) : List α :=
  (l.take (pyIdx l.length b)).drop (pyIdx l.length a)

/-- Python `l[a:]`. -/
def pySliceFrom (l : List α) (a : Int) : List α :=
  l.drop (pyIdx l.length a)

/-- Indices of the elements satisfying `p`, in order
(Python `[i for i, x in enumerate(l) if p(x)]`). -/
def indicesWhere (p : α → Bool) : List α → Nat → List Nat
  | [], _ => []
  | x :: xs, i =>
    if p x then i :: indicesWhere p xs (i + 1) else indicesWhere p xs (i + 1)

/-- The six whitespace characters of Python's `\s` / `str.split()`
(ASCII; the reports are ASCII text). -/
def isPySpace (c : Char) : Bool :=
  c == ' ' || c == '\t' || c == '\n' || c == '\r' || c == '\x0b' || c == '\x0c'

/-- Python `s.split()` (split on whitespace runs, no empty tokens);
`acc` is the current token, reversed. -/
def splitWsGo : List Char → List Char → List String
  | [], acc => if acc.isEmpty then [] else [String.mk acc.reverse]
  | c :: cs, acc =>
    if isPySpace c then
      if acc.isEmpty then splitWsGo cs [] else String.mk acc.reverse :: splitWsGo cs []
    else splitWsGo cs (c :: acc)

/-- Python `s.split()`. -/
def pySplitWs (cs : List Char) : List String := splitWsGo cs []

/-- Python `s.rstrip('\n')`: drop every trailing newline character. -/
def rstripNewline (s : String) : String :=
  String.mk ((s.data.reverse.dropWhile (· == '\n')).reverse)

/-- Everything after the first `c` in `s` (Python `s.split(c, 1)[1]`),
or `none` when `c` does not occur (in which case the Python index `[1]`
raises `IndexError`). -/
def afterFirst (c : Char) (s : String) : Option String :=
  if (s.data.dropWhile (· ≠ c)).isEmpty then none
  else some (String.mk ((s.data.dropWhile (· ≠ c)).tail))

/-! ## `extract_solutions` (Section Extractor) -/

/-- `extract_solutions`: split the report at every line containing
`"SpwID"`.  With more than one marker, block `i` runs from marker `i`
(inclusive) to marker `i+1` (exclusive) and the last block to the end;
with exactly one marker, one block to the end; with no marker the code
evaluates `solutions_split[0]` on an empty list, an `IndexError`.
(The Python function takes a file path and reads `lines`; the embedding
starts from `lines`.) -/
def extract_solutions (lines : List String) : Except PyErr (List (List String)) :=
  let ss := indicesWhere (fun L => containsStr L "SpwID") lines 0
  if ss.length > 1 then
    .ok (((ss.zip ss.tail).map fun p => pySlice lines (p.1 : Int) (p.2 : Int)) ++
      [pySliceFrom lines ((ss.getLastD 0 : Nat) : Int)])
  else
    match ss with
    | [] => .error .indexError
    | i :: _ => .ok [pySliceFrom lines ((i : Nat) : Int)]

/-! ## `get_antenna_names` -/

/-- ASCII alphanumeric, the character class `[a-zA-Z0-9]`. -/
def isAlnumAscii (c : Char) : Bool := c.isAlpha || c.isDigit

/-- `re.findall(r'Ant = ([a-zA-Z0-9]+)', line)`: left-to-right
non-overlapping matches of the literal `"Ant = "` followed by a maximal
nonempty alphanumeric run (the capture); scanning resumes after each
match.  Fuel is the length of the character list. -/
def antScan : Nat → List Char → List String
  | 0, _ => []
  | _, [] => []
  | fuel + 1, c :: cs =>
    match c, cs with
    | 'A', 'n' :: 't' :: ' ' :: '=' :: ' ' :: rest =>
      let run := rest.takeWhile isAlnumAscii
      if run.isEmpty then antScan fuel cs
      else String.mk run :: antScan fuel (rest.dropWhile isAlnumAscii)
    | _, _ => antScan fuel cs

/-- `get_antenna_names`: antenna names from the first line of a section.
Python indexes `section[0]`; every call site in this development passes a
nonempty section (on `[]` Python would raise `IndexError`), so the
`headD ""` default is never exercised. -/
def get_antenna_names (sec : List String) : List String :=
  antScan (sec.headD "").data.length (sec.headD "").data

/-! ## `remove_newline_chars` -/

/-- `remove_newline_chars`: `rstrip('\n')` on every line. -/
def remove_newline_chars (solution : List String) : List String :=
  solution.map rstripNewline

/-! ## `remove_duplicate_heders` (Header Deduplicator) -/

/-- One scan of `remove_duplicate_heders`' `for i, L in enumerate(sol)`
loop: find the first index `i` with `"Time"` in `sol[i]` whose header
`get_antenna_names(sol[i-1:])` is nonempty and equal to the previously
seen header (`last`).  Note `sol[i-1:]` is a Python slice: at `i = 0` it
is `sol[-1:]`.  Fuel is `sol.length - i`. -/
def scanDupGo (sol : List String) : Nat → Nat → Option (List String) → Option Nat
  | 0, _, _ => none
  | fuel + 1, i, last =>
    if i < sol.length then
      if containsStr (sol.getD i "") "Time" then
        match last with
        | some lh =>
          if get_antenna_names (pySliceFrom sol ((i : Int) - 1)) = lh ∧
              get_antenna_names (pySliceFrom sol ((i : Int) - 1)) ≠ [] then some i
          else scanDupGo sol fuel (i + 1)
            (some (get_antenna_names (pySliceFrom sol ((i : Int) - 1))))
        | none => scanDupGo sol fuel (i + 1)
            (some (get_antenna_names (pySliceFrom sol ((i : Int) - 1))))
      else scanDupGo sol fuel (i + 1) last
    else none

/-- The scan of `remove_duplicate_heders`, started like the function
itself: index 0, `last_header = None` (the default at every call site,
including the recursive call). -/
def scanDup (sol : List String) : Option Nat :=
  scanDupGo sol sol.length 0 none

/-- The excision `sol = sol[:i-1] + sol[i+2:]` (at `i = 0` the Python
slice `sol[:-1]` drops the last line; the scan never produces `i = 0`). -/
def excise (sol : List String) (i : Nat) : List String :=
  if i = 0 then sol.take (sol.length - 1) ++ sol.drop 2
  else sol.take (i - 1) ++ sol.drop (i + 2)

/-- The restart-after-excision recursion of `remove_duplicate_heders`:
each excision strictly shortens the list by at least two lines, so fuel
`sol.length + 1` suffices (proved in `scanDup_rdhGo_none`). -/
def rdhGo : Nat → List String → List String
  | 0, sol => sol
  | fuel + 1, sol =>
    match scanDup sol with
    | some i => rdhGo fuel (excise sol i)
    | none => sol

/-- `remove_duplicate_heders` (sic): remove duplicate consecutive antenna
headers, restarting the scan from the top after each excision.  The
`last_header` parameter of the Python function is `None` at every call
site (the pipeline calls and the self-recursion all use the default), so
the embedding fixes it to `None`. -/
def remove_duplicate_heders (sol : List String) : List String :=
  rdhGo (sol.length + 1) sol

/-! ## `split_into_sections` (Table Segmenter) -/

/-- `split_into_sections`: a section starts one line before each line
containing `"Time"` (Python stores `i-1`, an `int` that can be `-1`);
consecutive start points delimit the sections, the last section runs to
the end.  With no `"Time"` line, `sections_split[-1]` raises
`IndexError`. -/
def split_into_sections (sol : List String) : Except PyErr (List (List String)) :=
  let ss : List Int :=
    (indicesWhere (fun L => containsStr L "Time") sol 0).map fun i => (i : Int) - 1
  match ss with
  | [] => .error .indexError
  | _ =>
    .ok (((ss.zip ss.tail).map fun p => pySlice sol p.1 p.2) ++
      [pySliceFrom sol (ss.getLastD 0)])

/-! ## `join_sections` (Section Joiner) -/

/-- The `for L, M in zip(sections[0], sections[1])` merge loop.  For each
pair, the code tests `M[0] == '-nbsdfbkj'` — the *first character* of
`M` (a one-character string, `IndexError` on an empty `M`) against the
nine-character sentinel — skipping the row when equal; otherwise it
appends `L + M.split('|', 1)[1]` (an `IndexError` when `M` has no
`'|'`). -/
def mergePair : List (String × String) → Except PyErr (List String)
  | [] => .ok []
  | (L, M) :: rest =>
    match M.data with
    | [] => .error .indexError
    | c :: _ =>
      if String.mk [c] = "-nbsdfbkj" then mergePair rest
      else
        match afterFirst '|' M with
        | none => .error .indexError
        | some tail => (mergePair rest).map fun t => (L ++ tail) :: t

/-- The recursion of `join_sections`: each step replaces the first two
sections by their merge, so `sections.length` steps of fuel suffice; the
fuel-0 case with two or more sections is unreachable. -/
def joinGo : Nat → List (List String) → Except PyErr (List String)
  | _, [] => .error .indexError
  | _, [s] => .ok (s.take 2 ++ s.drop 3)
  | 0, _ :: _ :: _ => .error .indexError
  | fuel + 1, s0 :: s1 :: rest =>
    (mergePair (s0.zip s1)).bind fun table => joinGo fuel (table :: rest)

/-- `join_sections`: with one section left, return it without its third
line (`sections[0][:2] + sections[0][3:]`); otherwise merge the first two
sections row-by-row (`zip`, which silently stops at the shorter one) and
recurse.  On `[]` the Python code evaluates `zip(sections[0], ...)`,
an `IndexError`. -/
def join_sections (sections : List (List String)) : Except PyErr (List String) :=
  joinGo sections.length sections

/-! ## `parse_bandpass_text` (pipeline entry point) -/

/-- `parse_bandpass_text`: extract the solutions and, **only when more
than one solution was found**, bind `sol` to the first one; then strip
newlines, deduplicate headers twice, split into sections and join them.
When exactly one solution exists, `sol` was never assigned and the first
use `remove_newline_chars(sol)` raises `UnboundLocalError`. -/
def parse_bandpass_text (lines : List String) : Except PyErr (List String) :=
  (extract_solutions lines).bind fun solutions =>
    if solutions.length > 1 then
      let sol := solutions.headD []
      let sol := remove_newline_chars sol
      let sol := remove_duplicate_heders sol
      let sol := remove_duplicate_heders sol
      (split_into_sections sol).bind fun sections =>
        join_sections sections
    else .error .unboundLocalError

/-! ## `caltable_to_dict` (Record Parser) -/

/-- Value of a nonempty decimal digit run. -/
def digitsVal (ds : List Char) : Nat :=
  ds.foldl (fun a c => 10 * a + (c.toNat - 48)) 0

/-- `re.match(r"(\S+)\s+(\S+)\s+(\d+)\|(.*)", L)`.  The alternation of
greedy `\S+`/`\s+` groups is forced to the maximal runs (no backtracking
can succeed elsewhere), `(\d+)` to the maximal digit run followed by the
literal `'|'`, and `(.*)` takes the remainder of the (newline-free)
line.  Returns `(time, field, channel, rest)`. -/
def matchDataLine (L : String) : Option (String × String × Nat × String) :=
  let cs := L.data
  let t1 := cs.takeWhile fun c => !isPySpace c
  let r1 := cs.dropWhile fun c => !isPySpace c
  if t1.isEmpty then none else
  let s1 := r1.takeWhile isPySpace
  let r2 := r1.dropWhile isPySpace
  if s1.isEmpty then none else
  let t2 := r2.takeWhile fun c => !isPySpace c
  let r3 := r2.dropWhile fun c => !isPySpace c
  if t2.isEmpty then none else
  let s2 := r3.takeWhile isPySpace
  let r4 := r3.dropWhile isPySpace
  if s2.isEmpty then none else
  let ds := r4.takeWhile Char.isDigit
  let r5 := r4.dropWhile Char.isDigit
  if ds.isEmpty then none else
  match r5 with
  | '|' :: rest => some (String.mk t1, String.mk t2, digitsVal ds, String.mk rest)
  | _ => none

/-- Python `float(x)` on a plain decimal token: optional sign, digits
with optional fractional part, optional decimal exponent (`inf`/`nan`
and digit-group underscores do not occur in caltables and are not
modelled).  The token's decimal value
`sign·(ip.frac)·10^exp = sign·(ip·10^|frac| + frac)·10^(exp−|frac|)`
is kept exactly in `ℚ`, built with integer arithmetic and one `mkRat`. -/
def parsePyFloat (s : String) : Option ℚ :=
  let signed : Int × List Char :=
    match s.data with
    | '+' :: r => (1, r)
    | '-' :: r => (-1, r)
    | _ => (1, s.data)
  let ip := signed.2.takeWhile Char.isDigit
  let r1 := signed.2.dropWhile Char.isDigit
  let frac : List Char × List Char :=
    match r1 with
    | '.' :: r => (r.takeWhile Char.isDigit, r.dropWhile Char.isDigit)
    | _ => ([], r1)
  if ip.isEmpty ∧ frac.1.isEmpty then none else
  let mant : Int :=
    signed.1 * ((digitsVal ip : Int) * (10 : Int) ^ frac.1.length
      + (digitsVal frac.1 : Int))
  match frac.2 with
  | [] => some (mkRat mant ((10 : Nat) ^ frac.1.length))
  | e :: r3 =>
    if e = 'e' ∨ e = 'E' then
      let esigned : Int × List Char :=
        match r3 with
        | '+' :: r => (1, r)
        | '-' :: r => (-1, r)
        | _ => (1, r3)
      let ed := esigned.2.takeWhile Char.isDigit
      if ed.isEmpty ∨ ¬(esigned.2.dropWhile Char.isDigit).isEmpty then none
      else
        if 0 ≤ esigned.1 * (digitsVal ed : Int) - (frac.1.length : Int) then
          some (mkRat (mant * (10 : Int) ^
            (esigned.1 * (digitsVal ed : Int) - (frac.1.length : Int)).toNat) 1)
        else
          some (mkRat mant ((10 : Nat) ^
            ((frac.1.length : Int) - esigned.1 * (digitsVal ed : Int)).toNat))
    else none

/-- `float` conversion of every token (`[float(x) for x in nums]`);
a failing token is Python's `ValueError`. -/
def parseFloats : List String → Option (List ℚ)
  | [] => some []
  | s :: ss =>
    match parsePyFloat s, parseFloats ss with
    | some v, some vs => some (v :: vs)
    | _, _ => none

/-- `values[:expected].reshape(nants, npol, 2)` followed by taking
`arr[:, :, 0]` (amplitude) and `arr[:, :, 1]` (phase) together: entry
`(a, p)` is the pair `(vals[2*(a*npol+p)], vals[2*(a*npol+p)+1])`
(row-major index arithmetic; the caller has checked
`vals.length = nants * npol * 2`). -/
def reshape3 (nants npol : Nat) (vals : List ℚ) : List (List (ℚ × ℚ)) :=
  (List.range nants).map fun a =>
    (List.range npol).map fun p =>
      (vals.getD (a * npol * 2 + p * 2) 0, vals.getD (a * npol * 2 + p * 2 + 1) 0)

/-- One parsed data record: time token, field token, channel index, and
the `(nants, npol)` matrix of `(amplitude, phase°)` pairs. -/
structure CalRec where
  time : String
  field : String
  ch : Nat
  vals : List (List (ℚ × ℚ))
deriving DecidableEq, Repr

/-- Default record for out-of-range `getD` indexing. -/
def defaultRec : CalRec := ⟨"", "", 0, []⟩

/-- The `for L in table` loop of `caltable_to_dict`: skip lines not
matching the data pattern; on a match, strip the flag character `F`
from the rest, split on whitespace, and check the token count against
`nants * 2 * npol` — on mismatch the function prints a warning and
returns `None` for the whole dataset (`.ok none`); otherwise convert
the tokens with `float` (`ValueError` on a malformed token) and record
the reshaped `(amp, phase)` matrix with the line's time, field and
channel. -/
def parseRecords (nants npol : Nat) : List String → Except PyErr (Option (List CalRec))
  | [] => .ok (some [])
  | L :: rest =>
    match matchDataLine L with
    | none => parseRecords nants npol rest
    | some (t, f, ch, restStr) =>
      if (pySplitWs (restStr.data.filter fun c => c ≠ 'F')).length
          ≠ nants * 2 * npol then .ok none
      else
        match parseFloats (pySplitWs (restStr.data.filter fun c => c ≠ 'F')) with
        | none => .error .valueError
        | some vals =>
          (parseRecords nants npol rest).map
            (Option.map fun rs => ⟨t, f, ch, reshape3 nants npol vals⟩ :: rs)

/-- Insert a record into a channel-sorted list. -/
def insertByCh (r : CalRec) : List CalRec → List CalRec
  | [] => [r]
  | x :: xs => if r.ch ≤ x.ch then r :: x :: xs else x :: insertByCh r xs

/-- `np.argsort(channels)` applied to the records: sort the records by
channel index.  (numpy's quicksort order among equal channels is
unspecified; when channels repeat, `caltable_to_dict` fails at the
`reshape` below before the order could be observed.) -/
def sortRecsByChannel : List CalRec → List CalRec
  | [] => []
  | r :: rs => insertByCh r (sortRecsByChannel rs)

/-- Insert a string into a `≤`-sorted list. -/
def insertStr (s : String) : List String → List String
  | [] => [s]
  | x :: xs => if s ≤ x then s :: x :: xs else x :: insertStr s xs

/-- Lexicographically sort a list of strings. -/
def sortStrs : List String → List String
  | [] => []
  | s :: ss => insertStr s (sortStrs ss)

/-- `np.unique` on an array of strings: the distinct values, sorted. -/
def uniqueSorted (l : List String) : List String := sortStrs l.dedup

/-- `np.swapaxes(g, 0, 1)` on a rectangular `(d0, d1, d2)` array held as
nested lists: entry `(a, c)` of the result is entry `(c, a)` of the
argument (`d1` read off the first row; numpy arrays are rectangular by
construction). -/
def swapaxes01 (m : List (List (List γ))) : List (List (List γ)) :=
  (List.range (m.headD []).length).map fun a =>
    (List.range m.length).map fun c => (m.getD c []).getD a []

/-- The parsed Calibration Dataset (the Python result dictionary), with
gains in polar representation — see the header comment. -/
structure CalDict where
  gains : List (List (List (ℚ × ℚ)))
  antennas : List String
  channels : List Nat
  polarizations : List String
  times : List String
  fields : List String
deriving DecidableEq, Repr

/-- `caltable_to_dict(table, npol=2)`: extract the antenna names from
`table[0]` (`IndexError` on an empty table), collect the data records,
and on the `None`-abort path propagate `None`; otherwise deduplicate
times and fields (`np.unique`: sorted, distinct), sort the records by
channel, and reshape the stacked `(nrec, nants, npol)` gains to
`(nchans, nants, npol)` — a `ValueError` when `nrec ≠ nchans` and the
axes are nonempty (numpy accepts the reshape when the total element
count `nrec*nants*npol = nchans*nants*npol`, which also holds whenever
`nants*npol = 0`) — and finally swap axes 0 and 1 to get gains indexed
`(antenna, channel, polarization)`. -/
def caltable_to_dict (table : List String) (npol : Nat := 2) :
    Except PyErr (Option CalDict) :=
  match table with
  | [] => .error .indexError
  | _ :: _ =>
    let antennas := get_antenna_names table
    let nants := antennas.length
    (parseRecords nants npol table).bind fun r =>
      match r with
      | none => .ok none
      | some recs =>
        let times := uniqueSorted (recs.map (·.time))
        let fields := uniqueSorted (recs.map (·.field))
        let sorted := sortRecsByChannel recs
        let channels := sorted.map (·.ch)
        let nchans := (recs.map (·.ch)).dedup.length
        if recs.length * (nants * npol) ≠ nchans * (nants * npol) then
          .error .valueError
        else
          .ok (some ⟨swapaxes01 (sorted.map (·.vals)), antennas, channels,
            ["pol0", "pol1"], times, fields⟩)

/-- The records of a table as `caltable_to_dict` orders them (parsed and
channel-sorted); `[]` on any non-success path. -/
def recordsOf (table : List String) (npol : Nat) : List CalRec :=
  match parseRecords (get_antenna_names table).length npol table with
  | .ok (some recs) => sortRecsByChannel recs
  | _ => []

/-- Amplitude of the record for the `c`-th smallest channel, antenna `a`,
polarization `p` — the entry `amp[a, c, p]` of the claim's
(antenna, channel, polarization)-axed amplitude matrix. -/
def ampAt (table : List String) (npol c a p : Nat) : ℚ :=
  (((((recordsOf table npol).getD c defaultRec).vals.getD a []).getD p (0, 0))).1

/-- Phase in degrees at the same position. -/
def phsAt (table : List String) (npol c a p : Nat) : ℚ :=
  (((((recordsOf table npol).getD c defaultRec).vals.getD a []).getD p (0, 0))).2

/-- Interpretation of a polar gain pair as the complex value
`amp * exp(1j * np.deg2rad(phase))` computed by the code. -/
noncomputable def gainValue (g : ℚ × ℚ) : ℂ :=
  (g.1 : ℂ) * Complex.exp (Complex.I * (((g.2 : ℝ) * Real.pi / 180 : ℝ) : ℂ))

/-! ## `save_bandpass_hdf5` (Persistence Layer)

The HDF5 container is modelled as an association list from dataset paths
to stored values; `h5Read` is the read-back of a stored dataset.  h5py's
write-then-read is assumed faithful (external library); what is embedded
is exactly what `save_bandpass_hdf5` stores and where. -/

/-- A stored HDF5 dataset: a byte-string array (numpy `dtype='S'`), an
integer array, or the complex gain array (polar representation). -/
inductive H5Data where
  | strArr (v : List (List Nat))
  | natArr (v : List Nat)
  | cplxArr (v : List (List (List (ℚ × ℚ))))
deriving DecidableEq, Repr

/-- `np.array(strings, dtype='S')` on the parser's ASCII names: each
string as its list of character codes (bytes). -/
def encodeBytes (s : String) : List Nat := s.data.map Char.toNat

/-- Decoding a stored byte string back to text (`bytes.decode`). -/
def decodeBytes (l : List Nat) : String := String.mk (l.map Char.ofNat)

/-- `save_bandpass_hdf5(filename, caldict)`: create the group
`CALIBRATION/BANDPASS` with datasets `ANTENNA`, `CHANNEL`,
`POLARIZATION`, `TIME`, `FIELD`, and the sub-group `GAIN` with dataset
`CPARAM` holding the gains.  The embedding returns the container's
contents (the file name only names the file). -/
def save_bandpass_hdf5 (caldict : CalDict) : List (String × H5Data) :=
  [("CALIBRATION/BANDPASS/ANTENNA", .strArr (caldict.antennas.map encodeBytes)),
   ("CALIBRATION/BANDPASS/CHANNEL", .natArr caldict.channels),
   ("CALIBRATION/BANDPASS/POLARIZATION", .strArr (caldict.polarizations.map encodeBytes)),
   ("CALIBRATION/BANDPASS/TIME", .strArr (caldict.times.map encodeBytes)),
   ("CALIBRATION/BANDPASS/FIELD", .strArr (caldict.fields.map encodeBytes)),
   ("CALIBRATION/BANDPASS/GAIN/CPARAM", .cplxArr caldict.gains)]

/-- Read one dataset back from a stored container. -/
def h5Read (file : List (String × H5Data)) (path : String) : Option H5Data :=
  (file.find? fun e => e.1 = path).map (·.2)

/-! ## Claim-specific concrete inputs -/

/-- A block whose second antenna header duplicates the first (used for
claim C7): lines 4, 5, 6 — the repeated header, its `"Time"` marker line
and the line after it — are what the excision removes. -/
def exDup : List String :=
  ["Ant = A0", "Time Field", "sub", "row1", "Ant = A0", "Time Field", "sub2", "row2"]

/-- A minimal well-formed one-antenna joined table (claim C8's witness). -/
def exTable8 : List String :=
  ["Ant = A0", "10:00:00 F1 0|1.0 0.0 2.0 90.0"]

/-- The dataset `caltable_to_dict` produces from `exTable8`. -/
def exDict8 : CalDict :=
  ⟨[[[(1, 0), (2, 90)]]], ["A0"], [0], ["pol0", "pol1"], ["10:00:00"], ["F1"]⟩

/-- The record parser returned a parsed dataset (a non-`None` dict and no
exception). -/
def yieldsDataset (r : Except PyErr (Option CalDict)) : Prop :=
  ∃ d, r = Except.ok (some d)

/-! ## Lemmas: the Header Deduplicator's scan and fuel -/

/-- A hit of the duplicate-header scan lies between the start index and
the end of the list. -/
lemma scanDupGo_some_bounds {sol : List String} :
    ∀ {fuel i : Nat} {last : Option (List String)} {k : Nat},
      scanDupGo sol fuel i last = some k → i ≤ k ∧ k < sol.length := by
  intro fuel
  induction fuel with
  | zero => intro i last k h; simp [scanDupGo] at h
  | succ n ih =>
    intro i last k h
    simp only [scanDupGo] at h
    split at h
    case isTrue hi =>
      split at h
      · split at h
        case h_1 =>
          split at h
          · cases h
            exact ⟨le_refl _, hi⟩
          · have := ih h
            exact ⟨by omega, this.2⟩
        case h_2 =>
          have := ih h
          exact ⟨by omega, this.2⟩
      · have := ih h
        exact ⟨by omega, this.2⟩
    case isFalse => cases h

/-- Starting the scan with no previously-seen header, a hit is strictly
past the start index: the scan must first record a header at an earlier
`"Time"` line. -/
lemma scanDupGo_none_lt {sol : List String} :
    ∀ {fuel i : Nat} {k : Nat},
      scanDupGo sol fuel i none = some k → i < k := by
  intro fuel
  induction fuel with
  | zero => intro i k h; simp [scanDupGo] at h
  | succ n ih =>
    intro i k h
    simp only [scanDupGo] at h
    split at h
    case isTrue hi =>
      split at h
      · have := (scanDupGo_some_bounds h).1
        omega
      · have := ih h
        omega
    case isFalse => cases h

/-- The index found by `scanDup` satisfies `1 ≤ i < sol.length`. -/
lemma scanDup_some_bounds {sol : List String} {i : Nat}
    (h : scanDup sol = some i) : 1 ≤ i ∧ i < sol.length :=
  ⟨scanDupGo_none_lt h, (scanDupGo_some_bounds h).2⟩

/-- An excision at an index found by the scan removes at least two
lines. -/
lemma excise_length_le {sol : List String} {i : Nat}
    (h1 : 1 ≤ i) (h2 : i < sol.length) :
    (excise sol i).length + 2 ≤ sol.length := by
  have : i ≠ 0 := Nat.one_le_iff_ne_zero.mp h1
  simp only [excise, this, if_false, List.length_append, List.length_take,
    List.length_drop]
  omega

/-- With fuel at least half the length, the re-scan loop reaches a
fixpoint: its result contains no further duplicate header. -/
lemma scanDup_rdhGo_none :
    ∀ (fuel : Nat) (sol : List String), sol.length < 2 * fuel →
      scanDup (rdhGo fuel sol) = none := by
  intro fuel
  induction fuel with
  | zero => intro sol h; omega
  | succ n ih =>
    intro sol h
    rw [rdhGo]
    cases hs : scanDup sol with
    | none => exact hs
    | some i =>
      have hb := scanDup_some_bounds hs
      have := excise_length_le hb.1 hb.2
      exact ih (excise sol i) (by omega)

/-- The re-scan loop's value does not depend on the fuel, once the fuel
is at least half the length. -/
lemma rdhGo_congr :
    ∀ (fuel fuel' : Nat) (sol : List String),
      sol.length < 2 * fuel → sol.length < 2 * fuel' →
      rdhGo fuel sol = rdhGo fuel' sol := by
  intro fuel
  induction fuel with
  | zero => intro fuel' sol h _; omega
  | succ n ih =>
    intro fuel' sol h h'
    cases fuel' with
    | zero => omega
    | succ m =>
      rw [rdhGo, rdhGo]
      cases hs : scanDup sol with
      | none => rfl
      | some i =>
        have hb := scanDup_some_bounds hs
        have := excise_length_le hb.1 hb.2
        exact ih m (excise sol i) (by omega) (by omega)

/-- Unfolding `remove_duplicate_heders` one excision step. -/
lemma remove_duplicate_heders_step {sol : List String} {i : Nat}
    (h : scanDup sol = some i) :
    remove_duplicate_heders sol = remove_duplicate_heders (excise sol i) := by
  have hb := scanDup_some_bounds h
  have hlen := excise_length_le hb.1 hb.2
  rw [remove_duplicate_heders, remove_duplicate_heders]
  rw [show sol.length + 1 = (sol.length) + 1 from rfl, rdhGo]
  simp only [h]
  exact rdhGo_congr sol.length ((excise sol i).length + 1) (excise sol i)
    (by omega) (by omega)

/-- With no element of `l` satisfying `p`, no index is collected. -/
lemma indicesWhere_eq_nil {p : α → Bool} :
    ∀ (l : List α), (∀ x ∈ l, p x = false) → ∀ i, indicesWhere p l i = [] := by
  intro l
  induction l with
  | nil => intro _ i; rfl
  | cons x xs ih =>
    intro h i
    have hx : p x = false := h x (List.mem_cons_self x xs)
    simp only [indicesWhere, hx, Bool.false_eq_true, if_false]
    exact ih (fun y hy => h y (List.mem_cons_of_mem x hy)) (i + 1)

/-- `zip` only sees the common prefix of its arguments. -/
lemma zip_eq_zip_take_min :
    ∀ (l1 l2 : List α),
      l1.zip l2 = (l1.take (min l1.length l2.length)).zip
        (l2.take (min l1.length l2.length)) := by
  intro l1
  induction l1 with
  | nil => intro l2; simp
  | cons a as ih =>
    intro l2
    cases l2 with
    | nil => simp
    | cons b bs =>
      simp only [List.length_cons, Nat.succ_min_succ, List.take_succ_cons,
        List.zip_cons_cons]
      rw [← ih bs]

/-! ## Claim C9 — idempotence of the Header Deduplicator -/

/-- C9: the Header Deduplicator is idempotent — applied to its own
output (which contains no further duplicate consecutive antenna header,
`scanDup_rdhGo_none`), it returns the sequence unchanged. -/
theorem C9_remove_duplicate_heders_idempotent (sol : List String) :
    remove_duplicate_heders (remove_duplicate_heders sol)
      = remove_duplicate_heders sol := by
  have hfix : scanDup (remove_duplicate_heders sol) = none := by
    rw [remove_duplicate_heders]
    exact scanDup_rdhGo_none (sol.length + 1) sol (by omega)
  conv_lhs => rw [remove_duplicate_heders]
  rw [rdhGo, hfix]

/-! ## Claim C7 — what one header excision removes -/

/-- C7 (amended): when the scan finds a duplicate header at the `"Time"`
line of index `i` (not the last line), the excision removes exactly
**three** lines — `sol[i-1]` (the header), `sol[i]` (the `"Time"` line)
and `sol[i+1]` — keeping the prefix and suffix intact, and deduplication
continues on the shortened block.  The spec's "exactly 2 lines" miscounts
the slice `sol[:i-1] + sol[i+2:]`. -/
theorem C7_excision_removes_three_lines (sol : List String) (i : Nat)
    (h : scanDup sol = some i) (h2 : i + 1 < sol.length) :
    remove_duplicate_heders sol
      = remove_duplicate_heders (sol.take (i - 1) ++ sol.drop (i + 2)) ∧
    sol.length = (sol.take (i - 1) ++ sol.drop (i + 2)).length + 3 := by
  have hb := scanDup_some_bounds h
  have he : excise sol i = sol.take (i - 1) ++ sol.drop (i + 2) := by
    simp [excise, Nat.one_le_iff_ne_zero.mp hb.1]
  constructor
  · rw [remove_duplicate_heders_step h, he]
  · simp only [List.length_append, List.length_take, List.length_drop]
    omega

/-- C7 witness: the concrete duplicated-header block `exDup`, whose scan
hit is at index 5 with two lines following. -/
theorem C7_witness :
    scanDup exDup = some 5 ∧ 5 + 1 < exDup.length ∧
    (remove_duplicate_heders exDup
        = remove_duplicate_heders (exDup.take 4 ++ exDup.drop 7) ∧
      exDup.length = (exDup.take 4 ++ exDup.drop 7).length + 3) :=
  ⟨by decide, by decide, C7_excision_removes_three_lines exDup 5 (by decide) (by decide)⟩

/-- C7 counterexample: the claim says only the header and `"Time"` lines
are excised and every other line is preserved, so `"sub2"` (the line
*after* the duplicate's `"Time"` line) would survive; it is removed. -/
theorem C7_counterexample :
    "sub2" ∈ exDup ∧ "sub2" ∉ remove_duplicate_heders exDup := by
  constructor
  · decide
  · decide

/-! ## Claim C3 — report with no `"SpwID"` marker -/

/-- C3 (amended): on a report with no `"SpwID"` marker line,
`extract_solutions` does fail rather than produce an empty result — but
with a bare `IndexError` from `solutions_split[0]` on the empty boundary
list, not with a `MalformedReportError` (no such class exists in the
code) nor any descriptive message. -/
theorem C3_no_marker_index_error (lines : List String)
    (h : ∀ L ∈ lines, containsStr L "SpwID" = false) :
    extract_solutions lines = Except.error PyErr.indexError := by
  have hnil : indicesWhere (fun L => containsStr L "SpwID") lines 0 = [] :=
    indicesWhere_eq_nil lines h 0
  simp [extract_solutions, hnil]

/-- C3 witness: the empty report. -/
theorem C3_witness : extract_solutions [] = Except.error PyErr.indexError :=
  C3_no_marker_index_error [] (by simp)

/-- C3 counterexample: a marker-free report makes `extract_solutions`
raise the built-in `IndexError` — there is no `MalformedReportError`
(and no descriptive message) anywhere in the code. -/
theorem C3_counterexample :
    extract_solutions ["no marker here"] = Except.error PyErr.indexError := by
  decide

/-! ## Claim C6 — row-count mismatch while joining -/

/-- C6 (amended): `join_sections` raises no alignment error at all on a
row-count mismatch: `zip` silently truncates the pairing to the shorter
Section, so joining two Sections equals joining their common-length
prefixes. -/
theorem C6_join_sections_truncates (s0 s1 : List String) :
    join_sections [s0, s1]
      = join_sections [s0.take (min s0.length s1.length),
          s1.take (min s0.length s1.length)] := by
  simp only [join_sections, List.length_cons, List.length_nil, joinGo]
  rw [← zip_eq_zip_take_min]

/-- C6 counterexample: two sections with different row counts join
without any error — the result is `.ok` (one merged row), truncated to
the shorter section, not a `SectionAlignmentError` (no such class exists
in the code). -/
theorem C6_counterexample :
    join_sections [["a|1", "b|2"], ["c|3"]] = Except.ok ["a|13"] := by
  decide

/-! ## Claim C5 — the no-data sentinel row skip -/

/-- C5: the code compares `M[0]` — the *first character* of the second
line — with the nine-character sentinel `'-nbsdfbkj'`, which is never
equal, so a row whose leading token is exactly the sentinel is *merged*,
not skipped: the first merged row below is `"x|1" + "q"`, carrying the
sentinel row's payload instead of dropping the row. -/
theorem C5_sentinel_row_merged_not_skipped :
    join_sections [["x|1", "y|2"], ["-nbsdfbkj|q", "z|3"]]
      = Except.ok ["x|1q", "y|23"] := by
  decide

/-! ## Claim C4 — single-solution reports -/

/-- C4: on a report with exactly one `"SpwID"` marker the pipeline does
not process the single block: `sol` is assigned only under
`len(solutions) > 1`, so `remove_newline_chars(sol)` raises
`UnboundLocalError`. -/
theorem C4_single_marker_unbound_local :
    parse_bandpass_text
      ["Bandpass solutions SpwID 1", "Ant = A0", "Time Field Chn|Amp Phs",
        "   |", "10:00:00 FieldX 0|1.0 0.0 2.0 90.0"]
      = Except.error PyErr.unboundLocalError := by
  decide

/-! ## Claim C1 — the sample scenario -/

/-- C1 counterexample: on the spec's two-antenna sample block the parse
does **not** succeed: `caltable_to_dict` returns `None` (modelled
`.ok none`), producing no gains at all. -/
theorem C1_counterexample :
    caltable_to_dict ["Ant = A0 Ant = A1", "10:00:00 FieldX 0|1.0 0.0F2.0 90.0"] 2
      = Except.ok none := by
  decide

/-- C1 (amended): on the sample block the antenna order `["A0", "A1"]`
and the data-line match are as the claim says and the flag character `F`
is removed — but removing it merges `"0.0F2.0"` into the single token
`"0.02.0"`, so only 3 numeric tokens remain where
`nants * 2 * npol = 8` are required, and the parser aborts with `None`
instead of yielding the claimed amplitude/phase matrices. -/
theorem C1_flag_merges_tokens_and_parse_aborts :
    get_antenna_names
        ["Ant = A0 Ant = A1", "10:00:00 FieldX 0|1.0 0.0F2.0 90.0"]
      = ["A0", "A1"] ∧
    matchDataLine "10:00:00 FieldX 0|1.0 0.0F2.0 90.0"
      = some ("10:00:00", "FieldX", 0, "1.0 0.0F2.0 90.0") ∧
    pySplitWs (("1.0 0.0F2.0 90.0").data.filter fun c => c ≠ 'F')
      = ["1.0", "0.02.0", "90.0"] ∧
    caltable_to_dict ["Ant = A0 Ant = A1", "10:00:00 FieldX 0|1.0 0.0F2.0 90.0"] 2
      = Except.ok none := by
  refine ⟨by decide, by decide, by decide, by decide⟩

/-! ## Claim C2 — token-count mismatch on a data line -/

/-- With a data line whose token count (after flag removal) is wrong,
the record loop can never produce a record list: it aborts with the
`None` return at that line (or at an earlier bad line), or propagates an
earlier line's `ValueError`. -/
lemma parseRecords_bad_count_no_records {nants npol : Nat} :
    ∀ (lines : List String) (L t f : String) (ch : Nat) (rest : String),
      L ∈ lines → matchDataLine L = some (t, f, ch, rest) →
      (pySplitWs (rest.data.filter fun c => c ≠ 'F')).length ≠ nants * 2 * npol →
      ∀ rs, parseRecords nants npol lines ≠ .ok (some rs) := by
  intro lines
  induction lines with
  | nil => intro L t f ch rest hL; cases hL
  | cons L0 ls ih =>
    intro L t f ch rest hL hm hcount rs hres
    rw [parseRecords] at hres
    split at hres
    next hm0 =>
      have hL' : L ∈ ls := by
        rcases List.mem_cons.mp hL with hEq | hMem
        · rw [hEq] at hm; rw [hm] at hm0; cases hm0
        · exact hMem
      exact ih L t f ch rest hL' hm hcount rs hres
    next t0 f0 ch0 rest0 hm0 =>
      by_cases hc : (pySplitWs (rest0.data.filter fun c => c ≠ 'F')).length
          ≠ nants * 2 * npol
      · rw [if_pos hc] at hres
        cases hres
      · rw [if_neg hc] at hres
        have hL' : L ∈ ls := by
          rcases List.mem_cons.mp hL with hEq | hMem
          · exfalso
            rw [hEq] at hm
            rw [hm] at hm0
            cases hm0
            exact hc hcount
          · exact hMem
        cases hpf : parseFloats (pySplitWs (rest0.data.filter fun c => c ≠ 'F')) with
        | none => rw [hpf] at hres; cases hres
        | some vals =>
          rw [hpf] at hres
          cases hrec : parseRecords nants npol ls with
          | error e => rw [hrec] at hres; cases hres
          | ok r =>
            rw [hrec] at hres
            cases r with
            | none => cases hres
            | some rs' => exact ih L t f ch rest hL' hm hcount rs' hrec

/-- C2 (amended): a data line whose whitespace token count after flag
removal differs from `nants * 2 * npol` makes `caltable_to_dict` abort
the whole dataset — it never yields a parsed dataset (it returns the
sentinel `None` at the offending line, as `C2_counterexample` shows
concretely, or propagates an earlier line's exception).  It does *not*
raise a `RecordShapeError`: no such class exists in the code, and the
abort is a printed warning plus `return None`, not an exception. -/
theorem C2_bad_token_count_yields_no_dataset (table : List String) (npol : Nat)
    (L t f : String) (ch : Nat) (rest : String)
    (hL : L ∈ table) (hm : matchDataLine L = some (t, f, ch, rest))
    (hcount : (pySplitWs (rest.data.filter fun c => c ≠ 'F')).length
      ≠ (get_antenna_names table).length * 2 * npol) :
    ¬ yieldsDataset (caltable_to_dict table npol) := by
  rintro ⟨d, hd⟩
  cases table with
  | nil => cases hL
  | cons T ts =>
    simp only [caltable_to_dict] at hd
    cases hrec : parseRecords (get_antenna_names (T :: ts)).length npol (T :: ts) with
    | error e => rw [hrec] at hd; cases hd
    | ok r =>
      rw [hrec] at hd
      cases r with
      | none => cases hd
      | some recs =>
        exact parseRecords_bad_count_no_records (T :: ts) L t f ch rest hL hm
          hcount recs hrec

/-- C2 counterexample: at a table whose single data line has 1 token
instead of the required `1 * 2 * 2 = 4`, the parser *returns* `None`
(after printing a warning) — an ordinary non-exception return value, not
a raised `RecordShapeError`. -/
theorem C2_counterexample :
    caltable_to_dict ["Ant = A0", "t f 0|1.0"] 2 = Except.ok none := by
  decide

/-- C2 witness: the amended theorem applied at the concrete table of
`C2_counterexample`. -/
theorem C2_witness :
    ¬ yieldsDataset (caltable_to_dict ["Ant = A0", "t f 0|1.0"] 2) :=
  C2_bad_token_count_yields_no_dataset ["Ant = A0", "t f 0|1.0"] 2
    "t f 0|1.0" "t" "f" 0 "1.0" (by decide) (by decide) (by decide)

/-! ## Claim C10 — persistence round-trip -/

/-- Decoding the stored byte string of a name gives the name back. -/
lemma decodeBytes_encodeBytes (s : String) : decodeBytes (encodeBytes s) = s := by
  simp only [decodeBytes, encodeBytes, List.map_map]
  have : (Char.ofNat ∘ Char.toNat) = id := by
    funext c
    exact Char.ofNat_toNat c
  rw [this, List.map_id]

/-- C10: writing a Calibration Dataset with `save_bandpass_hdf5` and
reading the container back reproduces the antenna names (their stored
byte strings decode to the original names), the channel list and the
gain array unchanged, each under its exact path, and the container holds
exactly the hierarchy
`/CALIBRATION/BANDPASS/{ANTENNA,CHANNEL,POLARIZATION,TIME,FIELD}` and
`/CALIBRATION/BANDPASS/GAIN/CPARAM` (the gains keep the dict's
`(nants, nchans, npol)` nesting, stored as-is). -/
theorem C10_save_bandpass_roundtrip (cd : CalDict) :
    h5Read (save_bandpass_hdf5 cd) "CALIBRATION/BANDPASS/ANTENNA"
      = some (.strArr (cd.antennas.map encodeBytes)) ∧
    (cd.antennas.map encodeBytes).map decodeBytes = cd.antennas ∧
    h5Read (save_bandpass_hdf5 cd) "CALIBRATION/BANDPASS/CHANNEL"
      = some (.natArr cd.channels) ∧
    h5Read (save_bandpass_hdf5 cd) "CALIBRATION/BANDPASS/GAIN/CPARAM"
      = some (.cplxArr cd.gains) ∧
    (save_bandpass_hdf5 cd).map Prod.fst =
      ["CALIBRATION/BANDPASS/ANTENNA", "CALIBRATION/BANDPASS/CHANNEL",
        "CALIBRATION/BANDPASS/POLARIZATION", "CALIBRATION/BANDPASS/TIME",
        "CALIBRATION/BANDPASS/FIELD", "CALIBRATION/BANDPASS/GAIN/CPARAM"] := by
  refine ⟨rfl, ?_, rfl, rfl, rfl⟩
  rw [List.map_map]
  have : (decodeBytes ∘ encodeBytes) = id := by
    funext s
    exact decodeBytes_encodeBytes s
  rw [this, List.map_id]

/-! ## Claim C8 — gains combine and land on the (antenna, channel, polarization) axes -/

/-- A reshaped value matrix has one row per antenna. -/
lemma reshape3_length (nants npol : Nat) (vals : List ℚ) :
    (reshape3 nants npol vals).length = nants := by
  simp [reshape3]

/-- Every row of a reshaped value matrix has one entry per polarization. -/
lemma reshape3_row_length {nants npol : Nat} {vals : List ℚ} :
    ∀ row ∈ reshape3 nants npol vals, row.length = npol := by
  intro row hrow
  simp only [reshape3, List.mem_map, List.mem_range] at hrow
  obtain ⟨a, _, rfl⟩ := hrow
  simp

/-- Every record the loop produces has a `(nants, npol)` value matrix. -/
lemma parseRecords_shape {nants npol : Nat} :
    ∀ (lines : List String) (recs : List CalRec),
      parseRecords nants npol lines = .ok (some recs) →
      ∀ r ∈ recs, r.vals.length = nants ∧ ∀ row ∈ r.vals, row.length = npol := by
  intro lines
  induction lines with
  | nil =>
    intro recs h r hr
    rw [parseRecords] at h
    cases h
    cases hr
  | cons L0 ls ih =>
    intro recs h r hr
    rw [parseRecords] at h
    split at h
    next => exact ih recs h r hr
    next t0 f0 ch0 rest0 hm0 =>
      split at h
      · simp at h
      · split at h
        next => cases h
        next vals hpf =>
          cases hrec : parseRecords nants npol ls with
          | error e => rw [hrec] at h; simp [Except.map] at h
          | ok ro =>
            rw [hrec] at h
            cases ro with
            | none => simp [Except.map] at h
            | some rs' =>
              simp only [Except.map, Option.map] at h
              cases h
              rcases List.mem_cons.mp hr with hEq | hMem
              · rw [hEq]
                exact ⟨reshape3_length nants npol vals, reshape3_row_length⟩
              · exact ih rs' hrec r hMem

/-- Inserting into the channel-sorted list is a permutation of consing. -/
lemma insertByCh_perm (r : CalRec) :
    ∀ l : List CalRec, List.Perm (insertByCh r l) (r :: l) := by
  intro l
  induction l with
  | nil => exact List.Perm.refl _
  | cons x xs ih =>
    rw [insertByCh]
    split
    · exact List.Perm.refl _
    · exact List.Perm.trans (List.Perm.cons x ih) (List.Perm.swap r x xs)

/-- The channel sort permutes the records. -/
lemma sortRecsByChannel_perm :
    ∀ l : List CalRec, List.Perm (sortRecsByChannel l) l := by
  intro l
  induction l with
  | nil => exact List.Perm.refl _
  | cons r rs ih =>
    exact List.Perm.trans (insertByCh_perm r (sortRecsByChannel rs))
      (List.Perm.cons r ih)

/-- Inserting preserves channel-sortedness. -/
lemma insertByCh_pairwise {r : CalRec} :
    ∀ {l : List CalRec}, l.Pairwise (fun x y => x.ch ≤ y.ch) →
      (insertByCh r l).Pairwise (fun x y => x.ch ≤ y.ch) := by
  intro l
  induction l with
  | nil =>
    intro _
    simp [insertByCh]
  | cons x xs ih =>
    intro h
    have hx := (List.pairwise_cons.mp h).1
    have hxs := (List.pairwise_cons.mp h).2
    rw [insertByCh]
    split
    next hle =>
      refine List.pairwise_cons.mpr ⟨?_, h⟩
      intro y hy
      rcases List.mem_cons.mp hy with hEq | hMem
      · rw [hEq]; exact hle
      · exact le_trans hle (hx y hMem)
    next hgt =>
      refine List.pairwise_cons.mpr ⟨?_, ih hxs⟩
      intro y hy
      rcases List.mem_cons.mp ((insertByCh_perm r xs).mem_iff.mp hy) with hEq | hMem
      · rw [hEq]; exact le_of_not_le hgt
      · exact hx y hMem

/-- The record-sorting step really sorts by channel. -/
lemma sortRecsByChannel_pairwise :
    ∀ l : List CalRec,
      (sortRecsByChannel l).Pairwise (fun x y => x.ch ≤ y.ch) := by
  intro l
  induction l with
  | nil => exact List.Pairwise.nil
  | cons r rs ih => exact insertByCh_pairwise ih

/-- `getD` through `map`, inside the length. -/
lemma getD_map_of_lt (f : α → β) :
    ∀ (l : List α) (i : Nat), i < l.length → ∀ (d : β) (d' : α),
      (l.map f).getD i d = f (l.getD i d') := by
  intro l
  induction l with
  | nil => intro i h; simp at h
  | cons x xs ih =>
    intro i h d d'
    cases i with
    | zero => simp
    | succ n =>
      simp only [List.map_cons, List.getD_cons_succ]
      exact ih n (by simpa using h) d d'

/-- `getD` on a mapped `range`, inside the length. -/
lemma getD_range_map (f : Nat → β) (n i : Nat) (h : i < n) (d : β) :
    ((List.range n).map f).getD i d = f i := by
  rw [getD_map_of_lt f (List.range n) i (by simpa using h) d 0]
  congr 1
  induction n generalizing i with
  | zero => omega
  | succ m ih =>
    rw [List.range_succ]
    by_cases hi : i < m
    · rw [List.getD_append _ _ _ _ (by simpa using hi)]
      exact ih i hi
    · have : i = m := by omega
      subst this
      rw [List.getD_append_right _ _ _ _ (by simp)]
      simp

/-- Index routing of the axis swap: entry `(a, c)` of `swapaxes01 m` is
entry `(c, a)` of `m`. -/
lemma swapaxes01_getD {m : List (List (List γ))} {a c : Nat}
    (ha : a < (m.headD []).length) (hc : c < m.length) :
    ((swapaxes01 m).getD a []).getD c [] = (m.getD c []).getD a [] := by
  rw [swapaxes01, getD_range_map _ _ a ha, getD_range_map _ _ c hc]

/-- C8: for every joined table that parses successfully with the default
two polarizations (success forces one record per channel: the `reshape`
guard rejects repeated channels), the records are sorted by channel
index, and the gain at `(antenna a, channel c, polarization p)` is
`amp * exp(1j * deg2rad(phase))` of the amplitude/phase entry for
antenna `a` and polarization `p` of the record with the `c`-th smallest
channel — i.e. the gain axes are (antenna, channel, polarization). -/
theorem C8_gains_sorted_combined_axes (table : List String) (d : CalDict)
    (h : caltable_to_dict table 2 = .ok (some d))
    (a c p : Nat) (ha : a < d.antennas.length) (hc : c < d.channels.length)
    (hp : p < 2) :
    List.Sorted (· ≤ ·) d.channels ∧
    gainValue (((d.gains.getD a []).getD c []).getD p (0, 0))
      = ((ampAt table 2 c a p : ℚ) : ℂ) *
        Complex.exp (Complex.I *
          ((((phsAt table 2 c a p : ℚ) : ℝ) * Real.pi / 180 : ℝ) : ℂ)) := by
  cases table with
  | nil => simp [caltable_to_dict] at h
  | cons T ts =>
    simp only [caltable_to_dict] at h
    cases hrec : parseRecords (get_antenna_names (T :: ts)).length 2 (T :: ts) with
    | error e => rw [hrec] at h; cases h
    | ok r =>
      rw [hrec] at h
      cases r with
      | none => simp [Except.bind] at h
      | some recs =>
        simp only [Except.bind] at h
        split at h
        next => cases h
        next hshape =>
          simp only [Except.ok.injEq, Option.some.injEq] at h
          subst h
          have hsortedRec := sortRecsByChannel_pairwise recs
          have hperm := sortRecsByChannel_perm recs
          have hrecords : recordsOf (T :: ts) 2 = sortRecsByChannel recs := by
            rw [recordsOf, hrec]
          constructor
          · exact List.pairwise_map.mpr hsortedRec
          · have hc' : c < (sortRecsByChannel recs).length := by
              simpa using hc
            have hne : sortRecsByChannel recs ≠ [] := by
              intro hnil
              rw [hnil] at hc'
              simp at hc'
            have hheadmem : (sortRecsByChannel recs).headD defaultRec ∈ recs := by
              have : (sortRecsByChannel recs).headD defaultRec
                  ∈ sortRecsByChannel recs := by
                cases hl : sortRecsByChannel recs with
                | nil => exact absurd hl hne
                | cons x xs => simp
              exact hperm.mem_iff.mp this
            have hhead : (((sortRecsByChannel recs).map (·.vals)).headD []).length
                = (get_antenna_names (T :: ts)).length := by
              cases hl : sortRecsByChannel recs with
              | nil => exact absurd hl hne
              | cons x xs =>
                have : x ∈ recs := by
                  rw [hl] at hheadmem
                  simpa using hheadmem
                simpa using
                  (parseRecords_shape (T :: ts) recs hrec x this).1
            have ha' : a < (((sortRecsByChannel recs).map (·.vals)).headD []).length := by
              rw [hhead]
              simpa using ha
            have hc'' : c < ((sortRecsByChannel recs).map (·.vals)).length := by
              simpa using hc'
            have hroute :
                (((swapaxes01 ((sortRecsByChannel recs).map (·.vals))).getD a []).getD c [])
                  = ((sortRecsByChannel recs).getD c defaultRec).vals.getD a [] := by
              rw [swapaxes01_getD ha' hc'']
              rw [getD_map_of_lt (·.vals) (sortRecsByChannel recs) c hc' [] defaultRec]
            rw [gainValue, ampAt, phsAt, hrecords, hroute]

/-- C8 witness: the concrete table `exTable8` parses to `exDict8`, and
the theorem applies at antenna 0, channel 0, polarization 0. -/
theorem C8_witness :
    caltable_to_dict exTable8 2 = Except.ok (some exDict8) ∧
    0 < exDict8.antennas.length ∧ 0 < exDict8.channels.length ∧ 0 < 2 ∧
    (List.Sorted (· ≤ ·) exDict8.channels ∧
      gainValue (((exDict8.gains.getD 0 []).getD 0 []).getD 0 (0, 0))
        = ((ampAt exTable8 2 0 0 0 : ℚ) : ℂ) *
          Complex.exp (Complex.I *
            ((((phsAt exTable8 2 0 0 0 : ℚ) : ℝ) * Real.pi / 180 : ℝ) : ℂ))) :=
  ⟨by decide, by decide, by decide, by decide,
    C8_gains_sorted_combined_axes exTable8 exDict8 (by decide) 0 0 0
      (by decide) (by decide) (by decide)⟩
